import Mathlib

/-!
Verification development for the Discord-Shiller-Bot repository.

Shallow embedding of:
* the object-graph codec (src/daf/convert.py): conversion of a Python value
  graph to a transport representation and back,
* the message timing/retry state machine (src/framework/message/base.py),
* the account orchestrator pieces referenced by the claims
  (src/daf/client.py): construction, the login-timeout path of initialize,
  the scheduler loop body, close and equality.

Python values are modelled by the inductive type Value below; Python dicts
and object attribute tables are association lists keyed by strings.  Fallible
Python code (attribute lookups, class resolution, iteration over
non-iterables) is modelled in the Option monad; general recursion over the
value graph is modelled with an explicit fuel argument, so every definition
is executable.  Durations are modelled as integers (random.randrange operates
on integers).
-/

set_option maxHeartbeats 1000000

namespace DAF

/-- A Python runtime value, as far as the codec can observe it.
`pobj tag fields` is a live object with its qualified class name
(`type.__module__ + "." + type.__name__`) and its attribute table;
`psem n` is an `asyncio.Semaphore(n)`; `pclient` is a `discord.Client`;
`pdec` is a `decimal.Decimal`. -/
inductive Value where
  | pnone : Value
  | pbool : Bool → Value
  | pint : Int → Value
  | pfloat : Int → Value
  | pdec : Int → Value
  | pstr : String → Value
  | plist : List Value → Value
  | ptuple : List Value → Value
  | pset : List Value → Value
  | pdict : List (String × Value) → Value
  | pobj : String → List (String × Value) → Value
  | psem : Nat → Value
  | pclient : Value

/-- Attribute/dict tables are association lists. -/
abbrev Fields := List (String × Value)

/-- Python dict / attribute lookup on an association list (first match). -/
def lookupA {α : Type} (k : String) : List (String × α) → Option α
  | [] => Option.none
  | (k0, v) :: rest => if k = k0 then some v else lookupA k rest

/-- Python `in` on a list of strings. -/
def memb (k : String) : List String → Bool
  | [] => false
  | x :: xs => if k = x then true else memb k xs

/-- `setattr` on an attribute table: replace the first binding of the key,
or append a new binding. -/
def setattrV : Fields → String → Value → Fields
  | [], k, v => [(k, v)]
  | (k0, v0) :: rest, k, v =>
    if k0 = k then (k0, v) :: rest else (k0, v0) :: setattrV rest k v

/-- Iterated `setattr`, in the order of the given pairs. -/
def setattrs (fs : Fields) (ps : Fields) : Fields :=
  ps.foldl (fun acc kv => setattrV acc kv.1 kv.2) fs

/-- The conversion lambdas appearing in `CONVERSION_ATTRS` (convert.py).
`apiObjectId` is `lambda guild: guild._apiobject.id`; `channelLambda` is
`CHANNEL_LAMBDA` (convert.py 86-91). -/
inductive ConvertFn where
  | apiObjectId : ConvertFn
  | channelLambda : ConvertFn

/-- One entry of `CONVERSION_ATTRS`: the slot list, the restore table,
the convert table and the skip list (convert.py 40-128).  No entry of the
source table sets `attrs_skip`, so all skip lists are empty; no restore
value in the source table is a lambda, so restore values are plain values. -/
structure TypeAttrs where
  attrs : List String
  attrs_restore : List (String × Value)
  attrs_convert : List (String × ConvertFn)
  attrs_skip : List String

/-- `[x if isinstance(x, int) else x.id for x in channels]` over the element
list of a channels collection.  A Python bool is an instance of int and is
kept unchanged; an element that is neither an int nor an object with an
`id` attribute raises, modelled as failure. -/
def channelIds : List Value → Option (List Value)
  | [] => some []
  | Value.pint n :: rest =>
    match channelIds rest with
    | some r => some (Value.pint n :: r)
    | Option.none => Option.none
  | Value.pbool b :: rest =>
    match channelIds rest with
    | some r => some (Value.pbool b :: r)
    | Option.none => Option.none
  | Value.pobj _ fs :: rest =>
    match lookupA "id" fs, channelIds rest with
    | some idv, some r => some (idv :: r)
    | _, _ => Option.none
  | _ => Option.none

/-- Run a conversion lambda on the object's attribute table.
`apiObjectId` reads `object._apiobject.id`; `channelLambda` keeps an
`AutoCHANNEL` channels attribute as it is and otherwise maps every channel
to its id (convert.py 77, 86-91).  Failure models an attribute/type error. -/
def runConvert : ConvertFn → Fields → Option Value
  | ConvertFn.apiObjectId, fields =>
    (match lookupA "_apiobject" fields with
     | some (Value.pobj _ fs) => lookupA "id" fs
     | _ => Option.none)
  | ConvertFn.channelLambda, fields =>
    (match lookupA "channels" fields with
     | some (Value.pobj t fs) =>
       if t = "daf.message.AutoCHANNEL" then some (Value.pobj t fs)
       else Option.none
     | some (Value.plist xs) =>
       (match channelIds xs with
        | some r => some (Value.plist r)
        | Option.none => Option.none)
     | some (Value.ptuple xs) =>
       (match channelIds xs with
        | some r => some (Value.plist r)
        | Option.none => Option.none)
     | some (Value.pset xs) =>
       (match channelIds xs with
        | some r => some (Value.plist r)
        | Option.none => Option.none)
     | _ => Option.none)

/-- The slot list of ACCOUNT.  Modelled from the spec: `misc.get_all_slots`
is defined outside src/; the list is the set of attributes assigned by
`ACCOUNT.__init__` (client.py 82-111), in assignment order. -/
def ACCOUNT_slots : List String :=
  ["_token", "is_user", "proxy", "intents", "_running", "tasks",
   "_servers", "_autoguilds", "_uiservers", "_client", "_update_sem"]

/-- `CONVERSION_ATTRS[client.ACCOUNT]` (convert.py 41-49). -/
def accountTA : TypeAttrs :=
  { attrs := ACCOUNT_slots,
    attrs_restore :=
      [("tasks", Value.plist []),
       ("_update_sem", Value.psem 1),
       ("_running", Value.pbool false),
       ("_client", Value.pnone)],
    attrs_convert := [],
    attrs_skip := [] }

/-- The slot list of AutoGUILD.  Modelled from the spec: the class and
`misc.get_all_slots` are outside src/; §3 describes an auto-discovering
destination with a cache, a query iterator, its own guard and a parent
back-reference. -/
def AutoGUILD_slots : List String :=
  ["include_pattern", "exclude_pattern", "interval", "cache",
   "guild_query_iter", "_safe_sem", "parent"]

/-- `CONVERSION_ATTRS[guild.AutoGUILD]` (convert.py 50-58). -/
def autoGuildTA : TypeAttrs :=
  { attrs := AutoGUILD_slots,
    attrs_restore :=
      [("_safe_sem", Value.psem 1),
       ("parent", Value.pnone),
       ("guild_query_iter", Value.pnone),
       ("cache", Value.pdict [])],
    attrs_convert := [],
    attrs_skip := [] }

/-- The slot list of AutoCHANNEL.  Modelled from the spec (class outside
src/): an auto-discovering channel set with a cache and a parent. -/
def AutoCHANNEL_slots : List String :=
  ["include_pattern", "exclude_pattern", "interval", "parent", "cache"]

/-- `CONVERSION_ATTRS[message.AutoCHANNEL]` (convert.py 59-65). -/
def autoChannelTA : TypeAttrs :=
  { attrs := AutoCHANNEL_slots,
    attrs_restore :=
      [("parent", Value.pnone),
       ("cache", Value.pset [])],
    attrs_convert := [],
    attrs_skip := [] }

/-- The slot list of GUILD.  Modelled from the spec (class outside src/):
a destination holds its api object, an ordered message collection, its own
guard and a parent back-reference. -/
def GUILD_slots : List String :=
  ["_apiobject", "_messages", "update_semaphore", "parent"]

/-- `CONVERSION_ATTRS[guild.GUILD]` (convert.py 70-79). -/
def guildTA : TypeAttrs :=
  { attrs := GUILD_slots,
    attrs_restore :=
      [("update_semaphore", Value.psem 1),
       ("parent", Value.pnone)],
    attrs_convert := [("_apiobject", ConvertFn.apiObjectId)],
    attrs_skip := [] }

/-- The slot list of USER.  Modelled from the spec (class outside src/). -/
def USER_slots : List String :=
  ["_apiobject", "_messages", "update_semaphore", "parent"]

/-- `CONVERSION_ATTRS[guild.USER]`: a copy of the GUILD entry with its own
slot list (convert.py 81-82). -/
def userTA : TypeAttrs :=
  { guildTA with attrs := USER_slots }

/-- The slot list of TextMESSAGE.  Modelled from the spec (class outside
src/): the base message timing slots (base.py 26-35) plus the text-message
fields named by the restore/convert tables and §3. -/
def TextMESSAGE_slots : List String :=
  ["start_period", "end_period", "period", "data", "channels", "mode",
   "start_in", "sent_messages", "update_semaphore", "parent"]

/-- `CONVERSION_ATTRS[message.TextMESSAGE]` (convert.py 93-103). -/
def textMessageTA : TypeAttrs :=
  { attrs := TextMESSAGE_slots,
    attrs_restore :=
      [("update_semaphore", Value.psem 1),
       ("parent", Value.pnone),
       ("sent_messages", Value.pdict [])],
    attrs_convert := [("channels", ConvertFn.channelLambda)],
    attrs_skip := [] }

/-- The slot list of VoiceMESSAGE.  Modelled from the spec (class outside
src/). -/
def VoiceMESSAGE_slots : List String :=
  ["start_period", "end_period", "period", "data", "channels", "volume",
   "start_in", "update_semaphore", "parent"]

/-- `CONVERSION_ATTRS[message.VoiceMESSAGE]` (convert.py 105-114). -/
def voiceMessageTA : TypeAttrs :=
  { attrs := VoiceMESSAGE_slots,
    attrs_restore :=
      [("update_semaphore", Value.psem 1),
       ("parent", Value.pnone)],
    attrs_convert := [("channels", ConvertFn.channelLambda)],
    attrs_skip := [] }

/-- The slot list of DirectMESSAGE.  Modelled from the spec (class outside
src/). -/
def DirectMESSAGE_slots : List String :=
  ["start_period", "end_period", "period", "data", "mode", "start_in",
   "previous_message", "dm_channel", "update_semaphore", "parent"]

/-- `CONVERSION_ATTRS[message.DirectMESSAGE]` (convert.py 117-128). -/
def directMessageTA : TypeAttrs :=
  { attrs := DirectMESSAGE_slots,
    attrs_restore :=
      [("update_semaphore", Value.psem 1),
       ("parent", Value.pnone),
       ("previous_message", Value.pnone),
       ("dm_channel", Value.pnone)],
    attrs_convert := [("channels", ConvertFn.channelLambda)],
    attrs_skip := [] }

/-- `CONVERSION_ATTRS` (convert.py 40-128), keyed by the qualified class
name used as the `object_type` tag, in source insertion order. -/
def CONVERSION_ATTRS : List (String × TypeAttrs) :=
  [("daf.client.ACCOUNT", accountTA),
   ("daf.guild.AutoGUILD", autoGuildTA),
   ("daf.message.AutoCHANNEL", autoChannelTA),
   ("daf.guild.GUILD", guildTA),
   ("daf.guild.USER", userTA),
   ("daf.message.TextMESSAGE", textMessageTA),
   ("daf.message.VoiceMESSAGE", voiceMessageTA),
   ("daf.message.DirectMESSAGE", directMessageTA)]

/-- The class tags `importlib.import_module` + `getattr` resolve during
decode (convert.py 224-227).  All registered classes are importable; the
claims only decode registry-tagged data, so only those tags are listed. -/
def KNOWN_CLASSES : List String :=
  ["daf.client.ACCOUNT", "daf.guild.AutoGUILD", "daf.message.AutoCHANNEL",
   "daf.guild.GUILD", "daf.guild.USER", "daf.message.TextMESSAGE",
   "daf.message.VoiceMESSAGE", "daf.message.DirectMESSAGE"]

/-- `copy.copy` at the level of observable values: a shallow copy is equal,
as a value, to the original (convert.py 250-251).  Object identity of the
copy is modelled separately for the aliasing claim. -/
def copy_restore_value (v : Value) : Value := v

/-- The restore step of decode (convert.py 242-253): every entry of the
type's restore table is shallow-copied and assigned, after the data
assignment.  No restore value of the source table is a lambda and none is a
`discord.Client`, so the lambda branch and the Client guard are dead here. -/
def applyRestore (tag : String) (fs : Fields) : Fields :=
  match lookupA tag CONVERSION_ATTRS with
  | Option.none => fs
  | some a =>
    setattrs fs (a.attrs_restore.map (fun kv => (kv.1, copy_restore_value kv.2)))

/-- The skip test of the slot loop (convert.py 159-161):
`k in attrs_restore or k in skip`. -/
def encSkip (a : TypeAttrs) (k : String) : Bool :=
  (lookupA k a.attrs_restore).isSome || memb k a.attrs_skip

/-- The value encoded for slot `k` (convert.py 163-168): the conversion
lambda's result when the slot is in the convert table, otherwise
`getattr(object_, k)` (failure models `AttributeError`). -/
def encAttrSource (a : TypeAttrs) (fields : Fields) (k : String) : Option Value :=
  match lookupA k a.attrs_convert with
  | some f => runConvert f fields
  | Option.none => lookupA k fields

mutual

/-- `convert_object_to_semi_dict` (convert.py 131-195), with fuel.
Primitive scalars pass through (Decimal is normalized to float); sets,
lists and tuples become lists of encoded elements; plain dicts encode
value-wise; a registered object becomes the tagged
`{"object_type": tag, "data": ...}` dict over its non-restored, non-skipped
slots; an unregistered object (including semaphores and clients) is kept
as it is. -/
def convert_object_to_semi_dict : Nat → Value → Option Value
  | 0, _ => Option.none
  | Nat.succ fuel, v =>
    match v with
    | Value.pnone => some Value.pnone
    | Value.pbool b => some (Value.pbool b)
    | Value.pint n => some (Value.pint n)
    | Value.pfloat q => some (Value.pfloat q)
    | Value.pdec q => some (Value.pfloat q)
    | Value.pstr s => some (Value.pstr s)
    | Value.plist xs =>
      (match encList fuel xs with
       | some ys => some (Value.plist ys)
       | Option.none => Option.none)
    | Value.ptuple xs =>
      (match encList fuel xs with
       | some ys => some (Value.plist ys)
       | Option.none => Option.none)
    | Value.pset xs =>
      (match encList fuel xs with
       | some ys => some (Value.plist ys)
       | Option.none => Option.none)
    | Value.pdict kvs =>
      (match encDict fuel kvs with
       | some ys => some (Value.pdict ys)
       | Option.none => Option.none)
    | Value.psem n => some (Value.psem n)
    | Value.pclient => some Value.pclient
    | Value.pobj tag fields =>
      (match lookupA tag CONVERSION_ATTRS with
       | Option.none => some (Value.pobj tag fields)
       | some a =>
         (match encData fuel a fields a.attrs with
          | some dataC =>
            some (Value.pdict
              [("object_type", Value.pstr tag), ("data", Value.pdict dataC)])
          | Option.none => Option.none))

/-- Element-wise encoding of a sequence (convert.py 188-190). -/
def encList : Nat → List Value → Option (List Value)
  | 0, _ => Option.none
  | Nat.succ _, [] => some []
  | Nat.succ fuel, x :: xs =>
    match convert_object_to_semi_dict fuel x, encList fuel xs with
    | some y, some ys => some (y :: ys)
    | _, _ => Option.none

/-- Value-wise encoding of a plain dict (convert.py 174-179). -/
def encDict : Nat → Fields → Option Fields
  | 0, _ => Option.none
  | Nat.succ _, [] => some []
  | Nat.succ fuel, (k, v) :: kvs =>
    match convert_object_to_semi_dict fuel v, encDict fuel kvs with
    | some y, some ys => some ((k, y) :: ys)
    | _, _ => Option.none

/-- The slot loop of `_convert_json_slots` (convert.py 158-170): iterate the
slot list; skip restore-table and skip-list slots; take the converted value
for convert-table slots and the attribute value otherwise; encode it
recursively.  A missing attribute raises, modelled as failure. -/
def encData : Nat → TypeAttrs → Fields → List String → Option Fields
  | 0, _, _, _ => Option.none
  | Nat.succ _, _, _, [] => some []
  | Nat.succ fuel, a, fields, k :: ks =>
    if encSkip a k then
      encData fuel a fields ks
    else
      match encAttrSource a fields k with
      | Option.none => Option.none
      | some value =>
        match convert_object_to_semi_dict fuel value, encData fuel a fields ks with
        | some ev, some rest => some ((k, ev) :: rest)
        | _, _ => Option.none

end

mutual

/-- `convert_from_semi_dict` (convert.py 198-257), with fuel.  A list
decodes element-wise (recursing only into dict elements); a dict without an
`object_type` key decodes value-wise; a dict tagged with a resolvable class
allocates a blank instance, assigns every decoded data entry, then assigns
the (copied) restore defaults; any other value is returned as it is. -/
def convert_from_semi_dict : Nat → Value → Option Value
  | 0, _ => Option.none
  | Nat.succ fuel, d =>
    match d with
    | Value.plist xs =>
      (match decList fuel xs with
       | some ys => some (Value.plist ys)
       | Option.none => Option.none)
    | Value.pdict kvs =>
      (match lookupA "object_type" kvs with
       | Option.none =>
         (match decDict fuel kvs with
          | some ys => some (Value.pdict ys)
          | Option.none => Option.none)
       | some (Value.pstr tag) =>
         if memb tag KNOWN_CLASSES then
           (match lookupA "data" kvs with
            | some (Value.pdict dataC) =>
              (match decData fuel dataC with
               | some ps =>
                 some (Value.pobj tag (applyRestore tag (setattrs [] ps)))
               | Option.none => Option.none)
            | _ => Option.none)
         else Option.none
       | some _ => Option.none)
    | other => some other

/-- The list branch of decode (convert.py 208-213): only dict elements are
decoded recursively, every other element is appended unchanged. -/
def decList : Nat → List Value → Option (List Value)
  | 0, _ => Option.none
  | Nat.succ _, [] => some []
  | Nat.succ fuel, x :: xs =>
    match (match x with
           | Value.pdict kvs => convert_from_semi_dict fuel (Value.pdict kvs)
           | other => some other),
          decList fuel xs with
    | some y, some ys => some (y :: ys)
    | _, _ => Option.none

/-- The plain-dict branch of decode (convert.py 216-221): every value is
decoded recursively. -/
def decDict : Nat → Fields → Option Fields
  | 0, _ => Option.none
  | Nat.succ _, [] => some []
  | Nat.succ fuel, (k, v) :: kvs =>
    match convert_from_semi_dict fuel v, decDict fuel kvs with
    | some y, some ys => some ((k, y) :: ys)
    | _, _ => Option.none

/-- The data-assignment loop of decode (convert.py 236-240): a dict or list
value is decoded recursively, every other value is assigned unchanged. -/
def decData : Nat → Fields → Option Fields
  | 0, _ => Option.none
  | Nat.succ _, [] => some []
  | Nat.succ fuel, (k, v) :: kvs =>
    match (match v with
           | Value.pdict x => convert_from_semi_dict fuel (Value.pdict x)
           | Value.plist x => convert_from_semi_dict fuel (Value.plist x)
           | other => some other),
          decData fuel kvs with
    | some y, some ys => some ((k, y) :: ys)
    | _, _ => Option.none

end

/-- The per-element decode step of the list branch. -/
def decElem (fuel : Nat) (x : Value) : Option Value :=
  match x with
  | Value.pdict kvs => convert_from_semi_dict fuel (Value.pdict kvs)
  | other => some other

/-- The per-entry decode step of the data-assignment loop. -/
def decDataStep (fuel : Nat) (v : Value) : Option Value :=
  match v with
  | Value.pdict x => convert_from_semi_dict fuel (Value.pdict x)
  | Value.plist x => convert_from_semi_dict fuel (Value.plist x)
  | other => some other

mutual

/-- The round-trip-stable fragment of values: values that both encode and
decode leave unchanged.  Primitives, semaphores, clients and unregistered
objects pass through both directions; lists and plain dicts are stable when
their contents are; Decimals are normalized to floats by encode, sets and
tuples become lists, a dict carrying an `object_type` key is misread by
decode, and a registered object is rebuilt by the codec, so none of those
are stable. -/
def stable : Value → Bool
  | Value.pnone => true
  | Value.pbool _ => true
  | Value.pint _ => true
  | Value.pfloat _ => true
  | Value.pdec _ => false
  | Value.pstr _ => true
  | Value.plist xs => stableList xs
  | Value.ptuple _ => false
  | Value.pset _ => false
  | Value.pdict kvs =>
    (match lookupA "object_type" kvs with
     | Option.none => stableDict kvs
     | some _ => false)
  | Value.pobj tag _ =>
    (match lookupA tag CONVERSION_ATTRS with
     | Option.none => true
     | some _ => false)
  | Value.psem _ => true
  | Value.pclient => true

/-- All elements stable. -/
def stableList : List Value → Bool
  | [] => true
  | x :: xs => stable x && stableList xs

/-- All dict values stable. -/
def stableDict : List (String × Value) → Bool
  | [] => true
  | (_, v) :: kvs => stable v && stableDict kvs

end

/-! ## Message timing and retry state machine (src/framework/message/base.py) -/

/-- `random.randrange(a, b)`, parametrized by a seed.  Modelled from the
spec: the random module is outside src/; the contract is an integer drawn
from the half-open interval `[a, b)` (raising when the interval is empty,
which the call sites rule out). -/
def randrange (a b : Int) (seed : Nat) : Int :=
  a + (seed : Int) % (b - a)

/-- The state of a `BaseMESSAGE` (base.py 26-60).  The TIMER class is
outside src/; it is modelled by the elapsed time since the last reset
(`timer_elapsed`).  The `force_retry` dict is flattened into its two keys;
the update mutex does not influence any claim and is omitted. -/
structure BaseMESSAGE where
  randomized_time : Bool
  start_period : Option Int
  end_period : Int
  period : Int
  timer_elapsed : Int
  force_retry_enabled : Bool
  force_retry_time : Int
  data : Value

/-- `BaseMESSAGE.__init__` (base.py 42-60): with `start_period` absent the
period is fixed at `end_period`; otherwise it is drawn by
`random.randrange(start_period, end_period)`, which raises (failure) when
the interval is empty.  `force_retry` is `{ENABLED: start_now, TIME: 0}`. -/
def BaseMESSAGE.init (sp : Option Int) (ep : Int) (dat : Value)
    (start_now : Bool) (seed : Nat) : Option BaseMESSAGE :=
  match sp with
  | Option.none =>
    some { randomized_time := false, start_period := Option.none,
           end_period := ep, period := ep, timer_elapsed := 0,
           force_retry_enabled := start_now, force_retry_time := 0,
           data := dat }
  | some a =>
    if a < ep then
      some { randomized_time := true, start_period := some a,
             end_period := ep, period := randrange a ep seed,
             timer_elapsed := 0,
             force_retry_enabled := start_now, force_retry_time := 0,
             data := dat }
    else Option.none

/-- `BaseMESSAGE.is_ready` (base.py 96-101):
`not ENABLED and elapsed > period or ENABLED and elapsed > TIME`. -/
def BaseMESSAGE.is_ready (m : BaseMESSAGE) : Bool :=
  (!m.force_retry_enabled && decide (m.timer_elapsed > m.period)) ||
  (m.force_retry_enabled && decide (m.timer_elapsed > m.force_retry_time))

/-- `BaseMESSAGE.reset_timer` (base.py 103-110): restart the timer, clear
the forced-retry flag, and redraw the period only when the time is
randomized.  On every constructed message `start_period` is present
whenever `randomized_time` holds, so the `getD` default is never taken. -/
def BaseMESSAGE.reset_timer (m : BaseMESSAGE) (seed : Nat) : BaseMESSAGE :=
  let m1 := { m with timer_elapsed := 0, force_retry_enabled := false }
  if m1.randomized_time = true then
    { m1 with period := randrange (m1.start_period.getD 0) m1.end_period seed }
  else m1

/-- Repeated `reset_timer` calls, one per seed. -/
def resetMany (m : BaseMESSAGE) (seeds : List Nat) : BaseMESSAGE :=
  seeds.foldl (fun mm s => BaseMESSAGE.reset_timer mm s) m

/-- Invariant of messages constructed with the given period window and
closed under `reset_timer`. -/
def MsgInv (sp : Option Int) (ep : Int) (m : BaseMESSAGE) : Prop :=
  m.start_period = sp ∧ m.end_period = ep ∧
  (sp = Option.none → m.randomized_time = false ∧ m.period = ep) ∧
  (∀ a, sp = some a →
    m.randomized_time = true ∧ a < ep ∧ a ≤ m.period ∧ m.period < ep)

/-! ## Account orchestrator (src/daf/client.py) -/

/-- `LOGIN_TIMEOUT_S` (client.py 22). -/
def LOGIN_TIMEOUT_S : Nat := 30

/-- `TOKEN_MAX_PRINT_LEN` (client.py 23). -/
def TOKEN_MAX_PRINT_LEN : Nat := 5

/-- The attribute table `ACCOUNT.__init__` produces (client.py 82-111), at
the codec's value level: the task dict has exactly the keys `text` and
`voice`, the running flag starts false, the update guard is
`asyncio.Semaphore(2)`. -/
def ACCOUNT_fields (token : String) (is_user : Bool) (proxy intents : Value)
    (servers : List Value) : Fields :=
  [("_token", Value.pstr token),
   ("is_user", Value.pbool is_user),
   ("proxy", proxy),
   ("intents", intents),
   ("_running", Value.pbool false),
   ("tasks", Value.pdict [("text", Value.pnone), ("voice", Value.pnone)]),
   ("_servers", Value.plist []),
   ("_autoguilds", Value.plist []),
   ("_uiservers", Value.plist servers),
   ("_client", Value.pclient),
   ("_update_sem", Value.psem 2)]

/-- The number of permits `ACCOUNT.update` acquires on `_update_sem`, from
the decorator `misc._async_safe("_update_sem", 2)` (client.py 273).  The
decorator itself is outside src/; modelled from the spec: it acquires the
named guard the given number of times around the call. -/
def ACCOUNT_update_acquire_permits : Nat := 2

/-- A Python exception, as far as the initialize timeout path can produce
one. -/
inductive PyError where
  | keyError : String → PyError
  | runtimeError : String → Bool → PyError

/-- The lifecycle state `initialize` reads in its timeout handler. -/
structure ACCOUNTState where
  tokenStr : String
  is_user : Bool
  running : Bool
  tasks : List (String × Option Nat)

/-- The part of `ACCOUNT.__init__` relevant to the login path (client.py
87-91): the running flag starts false and `self.tasks` is
`{"text": None, "voice": None}`. -/
def ACCOUNT_init_state (token : String) (is_user : Bool) : ACCOUNTState :=
  { tokenStr := token, is_user := is_user, running := false,
    tasks := [("text", Option.none), ("voice", Option.none)] }

/-- The `asyncio.TimeoutError` handler of `ACCOUNT.initialize` (client.py
161-163): it evaluates `self.tasks["client"].exception()` and then raises
`RuntimeError(f"Error logging in to Discord. (Token {token[:5]}...)")` from
that cause.  A missing `client` key raises `KeyError` before the
RuntimeError is ever built. -/
def initialize_timeout_path (a : ACCOUNTState) : PyError :=
  match lookupA "client" a.tasks with
  | Option.none => PyError.keyError "client"
  | some _ =>
    PyError.runtimeError
      ("Error logging in to Discord. (Token " ++
        a.tokenStr.take TOKEN_MAX_PRINT_LEN ++ "...)") true

/-- A destination as seen by one scheduler-loop tick: the result of its
`_check_state` health check and the finite sequence of
`(guild_ctx, message_ctx)` pairs its `_advertise` generator yields. -/
structure ServerSim where
  check_state : Bool
  advertise : List (Int × Option Int)
deriving DecidableEq

/-- The result of iterating one destination's advertise generator. -/
structure PairsResult where
  logs : List (Int × Int)
  nextIdx : Nat
  halted : Bool
deriving DecidableEq

/-- The result of the for-servers loop of one `_loop` tick. -/
structure TickResult where
  visited : List ServerSim
  logs : List (Int × Int)
  nextIdx : Nat
  halted : Bool
deriving DecidableEq

/-- The log entry a yielded pair produces: `save_log` is called exactly
when the message context is non-null (client.py 257-259). -/
def pairLog (p : Int × Option Int) : List (Int × Int) :=
  match p.2 with
  | some m => [(p.1, m)]
  | Option.none => []

/-- The `async for` over one destination's advertise generator (client.py
256-262).  `flagAt i` is the value of `self._running` at the i-th flag read
of the tick; after each yielded pair the pair is logged and then the flag
is read, returning (halting) when it is false.  A generator that yields no
further pairs never reads the flag. -/
def advertise_pairs_run (flagAt : Nat → Bool) :
    List (Int × Option Int) → Nat → PairsResult
  | [], i => { logs := [], nextIdx := i, halted := false }
  | p :: ps, i =>
    if flagAt i = false then
      { logs := pairLog p, nextIdx := i + 1, halted := true }
    else
      let r := advertise_pairs_run flagAt ps (i + 1)
      { logs := pairLog p ++ r.logs, nextIdx := r.nextIdx, halted := r.halted }

/-- The for-servers loop of one `__loop` body (client.py 249-262): for each
destination of the snapshot, in order, either prune it when its health
check reports it gone, or iterate its advertise generator; a `return`
raised inside the generator loop ends the whole tick. -/
def loop_tick_run (flagAt : Nat → Bool) : List ServerSim → Nat → TickResult
  | [], i => { visited := [], logs := [], nextIdx := i, halted := false }
  | s :: ss, i =>
    if s.check_state then
      let r := loop_tick_run flagAt ss i
      { visited := s :: r.visited, logs := r.logs,
        nextIdx := r.nextIdx, halted := r.halted }
    else
      let p := advertise_pairs_run flagAt s.advertise i
      if p.halted then
        { visited := [s], logs := p.logs, nextIdx := p.nextIdx, halted := true }
      else
        let r := loop_tick_run flagAt ss p.nextIdx
        { visited := s :: r.visited, logs := p.logs ++ r.logs,
          nextIdx := r.nextIdx, halted := r.halted }

/-- The account state `close` manipulates: the running flag, the results of
the two (already finished) scheduler tasks, and a count of how many times
`self._client.close()` has been called (the externally visible effect on
collaborator C1). -/
structure AccCloseState where
  running : Bool
  taskResults : List (Option String)
  clientCloseCalls : Nat
deriving DecidableEq

/-- `asyncio.gather(*tasks, return_exceptions=True)` (client.py 227):
collects every task result, exceptions included, and never raises. -/
def gather_results (ts : List (Option String)) : List (Option String) :=
  ts

/-- `ACCOUNT.close` (client.py 220-228): unconditionally set the running
flag false, await the tasks with `return_exceptions=True` (which cannot
raise), then call `self._client.close()`.  There is no check of the running
flag and no early return; per the §6 collaborator contract the client's
`close()` does not raise, so the whole call cannot raise (modelled by
always returning `some`). -/
def ACCOUNT_close (a : AccCloseState) : Option AccCloseState :=
  let results := gather_results a.taskResults
  some { running := false, taskResults := results,
         clientCloseCalls := a.clientCloseCalls + 1 }

/-- A Python value on the right of `ACCOUNT.__eq__`: either another ACCOUNT
(represented by its token) or a value of any other type. -/
inductive EqOperand where
  | account : String → EqOperand
  | other : String → EqOperand

/-- `ACCOUNT.__eq__` (client.py 113-117): token equality for two ACCOUNTs,
`NotImplementedError` for anything else. -/
def ACCOUNT_eq (token : String) : EqOperand → Except String Bool
  | EqOperand.account tok2 => Except.ok (decide (token = tok2))
  | EqOperand.other _ =>
    Except.error "NotImplementedError: Only comparison between 2 ACCOUNTs is supported"

/-- Whether `copy.copy` allocates a fresh object for this value: it does
for mutable containers, semaphores and generic objects; it returns the very
same object for immutables (ints, bools, None, strings, floats, tuples);
and a `discord.Client` is exempted from copying by the decode restore loop
itself (convert.py 250). -/
def copy_allocates : Value → Bool
  | Value.plist _ => true
  | Value.pdict _ => true
  | Value.pset _ => true
  | Value.psem _ => true
  | Value.pobj _ _ => true
  | _ => false

/-- The decode restore loop (convert.py 242-253) instrumented with object
identity: each entry of the restore table is assigned its declared default
value, and when `copy.copy` allocates (mutable containers), the assigned
object carries a fresh identity drawn from a monotone counter.  Returns the
assignments (key, value, optional identity) and the next counter value. -/
def restore_with_copy_ids :
    List (String × Value) → Nat → List (String × (Value × Option Nat)) × Nat
  | [], fresh => ([], fresh)
  | (k, v) :: rest, fresh =>
    if copy_allocates v then
      let r := restore_with_copy_ids rest (fresh + 1)
      ((k, (v, some fresh)) :: r.1, r.2)
    else
      let r := restore_with_copy_ids rest fresh
      ((k, (v, Option.none)) :: r.1, r.2)

/-! ## Concrete sample objects used by witnesses and counterexamples -/

/-- A placeholder message used only as a `getD` default. -/
def msgJunk : BaseMESSAGE :=
  { randomized_time := false, start_period := Option.none, end_period := 0,
    period := 0, timer_elapsed := 0, force_retry_enabled := false,
    force_retry_time := 0, data := Value.pnone }

/-- A randomized-period message: `BaseMESSAGE(3, 10, None, True)`. -/
def c3SampleMsg : BaseMESSAGE :=
  (BaseMESSAGE.init (some 3) 10 Value.pnone true 7).getD msgJunk

/-- A fixed-period message: `BaseMESSAGE(None, 5, None, True)`. -/
def c7SampleMsg : BaseMESSAGE :=
  (BaseMESSAGE.init Option.none 5 Value.pnone true 0).getD msgJunk

/-- An ACCOUNT attribute table captured while the account is running. -/
def c1SampleFields : Fields :=
  [("_token", Value.pstr "secret-token"),
   ("is_user", Value.pbool false),
   ("proxy", Value.pnone),
   ("intents", Value.pobj "_discord.flags.Intents" [("value", Value.pint 37)]),
   ("_running", Value.pbool true),
   ("tasks", Value.pdict [("text", Value.pnone), ("voice", Value.pnone)]),
   ("_servers", Value.plist []),
   ("_autoguilds", Value.plist []),
   ("_uiservers", Value.plist []),
   ("_client", Value.pclient),
   ("_update_sem", Value.psem 2)]

/-- The running ACCOUNT as a live object. -/
def c1SampleObj : Value := Value.pobj "daf.client.ACCOUNT" c1SampleFields

/-- Its encoding. -/
def c1SampleEnc : Value :=
  (convert_object_to_semi_dict 30 c1SampleObj).getD Value.pnone

/-- Its decoding. -/
def c1SampleDec : Value :=
  (convert_from_semi_dict 30 c1SampleEnc).getD Value.pnone

/-- A GUILD whose `_apiobject` attribute is a live (unregistered) api
object carrying id 123. -/
def gSampleFields : Fields :=
  [("_apiobject", Value.pobj "_discord.guild.Guild" [("id", Value.pint 123)]),
   ("_messages", Value.plist []),
   ("update_semaphore", Value.psem 1),
   ("parent", Value.pnone)]

/-- The GUILD as a live object. -/
def gSampleObj : Value := Value.pobj "daf.guild.GUILD" gSampleFields

/-- Its encoding. -/
def gSampleEnc : Value :=
  (convert_object_to_semi_dict 20 gSampleObj).getD Value.pnone

/-- The attribute table of the decoded GUILD: `_apiobject` now holds the
bare id, not the api object it held before encoding. -/
def gSampleDecFields : Fields :=
  [("_apiobject", Value.pint 123),
   ("_messages", Value.plist []),
   ("update_semaphore", Value.psem 1),
   ("parent", Value.pnone)]

/-- A freshly constructed ACCOUNT's attribute table. -/
def c10SampleFields : Fields :=
  ACCOUNT_fields "tok-10" false Value.pnone Value.pnone []

/-- The constructed ACCOUNT as a live object. -/
def c10SampleObj : Value := Value.pobj "daf.client.ACCOUNT" c10SampleFields

/-- Its encoding. -/
def c10SampleEnc : Value :=
  (convert_object_to_semi_dict 30 c10SampleObj).getD Value.pnone

/-- Its decoding. -/
def c10SampleDec : Value :=
  (convert_from_semi_dict 30 c10SampleEnc).getD Value.pnone

/-! ## Lemmas about the timing state machine -/

theorem randrange_mem (a b : Int) (seed : Nat) (h : a < b) :
    a ≤ randrange a b seed ∧ randrange a b seed < b := by
  unfold randrange
  have hpos : (0 : Int) < b - a := by omega
  have h1 : 0 ≤ (seed : Int) % (b - a) := Int.emod_nonneg _ (by omega)
  have h2 : (seed : Int) % (b - a) < b - a := Int.emod_lt_of_pos _ hpos
  omega

theorem BaseMESSAGE_init_inv (sp : Option Int) (ep : Int) (dat : Value)
    (sn : Bool) (seed : Nat) (m : BaseMESSAGE)
    (h : BaseMESSAGE.init sp ep dat sn seed = some m) : MsgInv sp ep m := by
  cases sp with
  | none =>
    simp only [BaseMESSAGE.init, Option.some.injEq] at h
    subst h
    exact ⟨rfl, rfl, fun _ => ⟨rfl, rfl⟩, fun a ha => Option.noConfusion ha⟩
  | some a =>
    by_cases hlt : a < ep
    · simp only [BaseMESSAGE.init, hlt, if_true, Option.some.injEq] at h
      subst h
      obtain ⟨h1, h2⟩ := randrange_mem a ep seed hlt
      refine ⟨rfl, rfl, fun hn => Option.noConfusion hn, fun b hb => ?_⟩
      obtain rfl : a = b := Option.some.inj hb
      exact ⟨rfl, hlt, h1, h2⟩
    · simp [BaseMESSAGE.init, hlt] at h

theorem reset_timer_inv (sp : Option Int) (ep : Int) (m : BaseMESSAGE) (seed : Nat)
    (h : MsgInv sp ep m) : MsgInv sp ep (m.reset_timer seed) := by
  obtain ⟨hsp, hep, hnone, hsome⟩ := h
  cases sp with
  | none =>
    obtain ⟨hr, hp⟩ := hnone rfl
    refine ⟨?_, ?_, fun _ => ⟨?_, ?_⟩, fun a ha => Option.noConfusion ha⟩ <;>
      simp [BaseMESSAGE.reset_timer, hr, hsp, hep, hp]
  | some a =>
    obtain ⟨hr, hlt, hlo, hhi⟩ := hsome a rfl
    have hb := randrange_mem a ep seed hlt
    refine ⟨?_, ?_, fun hn => Option.noConfusion hn, fun b hb2 => ?_⟩
    · simp [BaseMESSAGE.reset_timer, hr, hsp]
    · simp [BaseMESSAGE.reset_timer, hr, hep]
    · obtain rfl : a = b := Option.some.inj hb2
      refine ⟨?_, hlt, ?_, ?_⟩ <;>
        simp [BaseMESSAGE.reset_timer, hr, hsp, hep, hb.1, hb.2]

theorem resetMany_inv (sp : Option Int) (ep : Int) (m : BaseMESSAGE)
    (seeds : List Nat) (h : MsgInv sp ep m) : MsgInv sp ep (resetMany m seeds) := by
  induction seeds generalizing m with
  | nil => simpa [resetMany] using h
  | cons s rest ih =>
    have : resetMany m (s :: rest) = resetMany (m.reset_timer s) rest := by
      simp [resetMany, List.foldl]
    rw [this]
    exact ih _ (reset_timer_inv sp ep m s h)

theorem reset_timer_clears (m : BaseMESSAGE) (seed : Nat) :
    (m.reset_timer seed).timer_elapsed = 0 ∧
    (m.reset_timer seed).force_retry_enabled = false := by
  unfold BaseMESSAGE.reset_timer
  by_cases h : m.randomized_time = true <;> simp [h]

theorem reset_timer_period_fixed (m : BaseMESSAGE) (seed : Nat)
    (h : m.randomized_time = false) :
    (m.reset_timer seed).period = m.period := by
  simp [BaseMESSAGE.reset_timer, h]

/-! ## Claim C2 -/

/-- C2: for every message state, `is_ready()` returns true if and only if
either the forced-retry flag is disabled and the elapsed time strictly
exceeds the period, or the forced-retry flag is enabled and the elapsed
time strictly exceeds the forced-retry deadline (base.py 96-101). -/
theorem c2_is_ready_iff (m : BaseMESSAGE) :
    m.is_ready = true ↔
      ((m.force_retry_enabled = false ∧ m.period < m.timer_elapsed) ∨
       (m.force_retry_enabled = true ∧ m.force_retry_time < m.timer_elapsed)) := by
  cases h : m.force_retry_enabled <;> simp [BaseMESSAGE.is_ready, h]

/-! ## Claim C3 -/

/-- C3: on any constructed message, every `reset_timer()` call (after any
number of earlier resets) zeroes the elapsed clock and disables the
forced-retry flag; when the message was constructed without randomization
the period stays `end_period` (no redraw), and when it was constructed with
randomization the redrawn period lies in `[start_period, end_period)`
(base.py 103-110). -/
theorem c3_reset_timer (sp : Option Int) (ep : Int) (dat : Value) (sn : Bool)
    (seed0 : Nat) (m : BaseMESSAGE) (seeds : List Nat) (s : Nat)
    (h : BaseMESSAGE.init sp ep dat sn seed0 = some m) :
    (BaseMESSAGE.reset_timer (resetMany m seeds) s).timer_elapsed = 0 ∧
    (BaseMESSAGE.reset_timer (resetMany m seeds) s).force_retry_enabled = false ∧
    (sp = Option.none →
      (BaseMESSAGE.reset_timer (resetMany m seeds) s).period = ep ∧
      (BaseMESSAGE.reset_timer (resetMany m seeds) s).period = (resetMany m seeds).period) ∧
    (∀ a, sp = some a →
      a ≤ (BaseMESSAGE.reset_timer (resetMany m seeds) s).period ∧
      (BaseMESSAGE.reset_timer (resetMany m seeds) s).period < ep) := by
  have hinv := resetMany_inv sp ep m seeds (BaseMESSAGE_init_inv sp ep dat sn seed0 m h)
  have hres := reset_timer_clears (resetMany m seeds) s
  refine ⟨hres.1, hres.2, ?_, ?_⟩
  · intro hsp
    obtain ⟨hr, hp⟩ := hinv.2.2.1 hsp
    have hfix := reset_timer_period_fixed (resetMany m seeds) s hr
    exact ⟨hfix.trans hp, hfix⟩
  · intro a hsp
    have hinv2 := reset_timer_inv _ _ _ s hinv
    obtain ⟨_, _, hlo, hhi⟩ := hinv2.2.2.2 a hsp
    exact ⟨hlo, hhi⟩

/-- Witness for C3 at `BaseMESSAGE(3, 10, None, True)` after one earlier
reset. -/
theorem c3_reset_timer_witness :
    (BaseMESSAGE.reset_timer (resetMany c3SampleMsg [5]) 11).timer_elapsed = 0 ∧
    (BaseMESSAGE.reset_timer (resetMany c3SampleMsg [5]) 11).force_retry_enabled = false ∧
    3 ≤ (BaseMESSAGE.reset_timer (resetMany c3SampleMsg [5]) 11).period ∧
    (BaseMESSAGE.reset_timer (resetMany c3SampleMsg [5]) 11).period < 10 := by
  have h := c3_reset_timer (some 3) 10 Value.pnone true 7 c3SampleMsg [5] 11 rfl
  exact ⟨h.1, h.2.1, (h.2.2.2 3 rfl).1, (h.2.2.2 3 rfl).2⟩

/-! ## Claim C7 -/

/-- C7: a message constructed with `start_period` absent has
`period = end_period` and no later reset ever redraws it; a message
constructed with `start_period` present draws its period from
`[start_period, end_period)` at construction; and the forced-retry flag is
armed at construction, with deadline 0, exactly when `start_now` is true
(base.py 42-60). -/
theorem c7_construction_contract (sp : Option Int) (ep : Int) (dat : Value)
    (sn : Bool) (seed0 : Nat) (m : BaseMESSAGE)
    (h : BaseMESSAGE.init sp ep dat sn seed0 = some m) :
    (sp = Option.none → m.period = ep ∧ ∀ seeds, (resetMany m seeds).period = ep) ∧
    (∀ a, sp = some a → a ≤ m.period ∧ m.period < ep) ∧
    m.force_retry_enabled = sn ∧ m.force_retry_time = 0 := by
  have hinv := BaseMESSAGE_init_inv sp ep dat sn seed0 m h
  refine ⟨?_, ?_, ?_⟩
  · intro hsp
    refine ⟨(hinv.2.2.1 hsp).2, fun seeds => ?_⟩
    exact ((resetMany_inv _ _ m seeds hinv).2.2.1 hsp).2
  · intro a hsp
    obtain ⟨_, _, hlo, hhi⟩ := hinv.2.2.2 a hsp
    exact ⟨hlo, hhi⟩
  · cases sp with
    | none =>
      simp only [BaseMESSAGE.init, Option.some.injEq] at h
      subst h
      exact ⟨rfl, rfl⟩
    | some a =>
      by_cases hlt : a < ep
      · simp only [BaseMESSAGE.init, hlt, if_true, Option.some.injEq] at h
        subst h
        exact ⟨rfl, rfl⟩
      · simp [BaseMESSAGE.init, hlt] at h

/-- Witness for C7 at `BaseMESSAGE(None, 5, None, True)`. -/
theorem c7_construction_contract_witness :
    c7SampleMsg.period = 5 ∧ (resetMany c7SampleMsg [1, 2, 3]).period = 5 ∧
    c7SampleMsg.force_retry_enabled = true ∧ c7SampleMsg.force_retry_time = 0 := by
  have h := c7_construction_contract Option.none 5 Value.pnone true 0 c7SampleMsg rfl
  exact ⟨(h.1 rfl).1, (h.1 rfl).2 [1, 2, 3], h.2.2.1, h.2.2.2⟩

/-! ## Claim C4 -/

/-- C4: the timeout handler of `ACCOUNT.initialize` evaluates
`self.tasks["client"]`, but the task dict of a constructed ACCOUNT has
exactly the keys `text` and `voice`, so the handler raises
`KeyError("client")` — not the documented `RuntimeError` carrying the
redacted token and the connection failure as cause (client.py 88, 161-163). -/
theorem c4_login_timeout_keyerror (token : String) (is_user : Bool) :
    initialize_timeout_path (ACCOUNT_init_state token is_user) =
      PyError.keyError "client" ∧
    (∀ msg c, PyError.keyError "client" ≠ PyError.runtimeError msg c) := by
  refine ⟨rfl, ?_⟩
  intro msg c h
  exact PyError.noConfusion h

/-! ## Claim C6 -/

/-- Counterexample to C6 as stated: after a completed `close()`, a second
`close()` does not observe the flag and return without further effect — it
performs another `self._client.close()` call, so the post-state of the
second call differs from the post-state of the first (client.py 220-228
contain no flag check and no early return). -/
theorem c6_counterexample :
    ACCOUNT_close { running := true, taskResults := [Option.none, Option.none],
                    clientCloseCalls := 0 } =
      some { running := false, taskResults := [Option.none, Option.none],
             clientCloseCalls := 1 } ∧
    ACCOUNT_close { running := false, taskResults := [Option.none, Option.none],
                    clientCloseCalls := 1 } =
      some { running := false, taskResults := [Option.none, Option.none],
             clientCloseCalls := 2 } ∧
    ({ running := false, taskResults := [Option.none, Option.none],
       clientCloseCalls := 2 } : AccCloseState) ≠
      { running := false, taskResults := [Option.none, Option.none],
        clientCloseCalls := 1 } := by
  refine ⟨rfl, rfl, ?_⟩
  decide

/-- C6 amended: calling `close()` twice does not raise, and the second call
leaves the account state unchanged (running stays false, the task results
stay the same); however the second call does not observe the flag or return
early — it unconditionally re-awaits the finished tasks and calls the
client's `close()` once more. -/
theorem c6_close_twice_amended (a : AccCloseState) :
    ∃ a1 a2, ACCOUNT_close a = some a1 ∧ ACCOUNT_close a1 = some a2 ∧
      a1.running = false ∧ a2.running = false ∧
      a2.taskResults = a1.taskResults ∧
      a2.clientCloseCalls = a1.clientCloseCalls + 1 :=
  ⟨_, _, rfl, rfl, rfl, rfl, rfl, rfl⟩

/-! ## Claim C8 -/

/-- C8: `ACCOUNT.__eq__` returns true exactly when the two tokens are
equal, and comparing an ACCOUNT with a value of any other type raises
`NotImplementedError` instead of returning false (client.py 113-117). -/
theorem c8_eq_tokens_or_raises :
    (∀ t1 t2, ACCOUNT_eq t1 (EqOperand.account t2) = Except.ok true ↔ t1 = t2) ∧
    (∀ t1 t2, ACCOUNT_eq t1 (EqOperand.account t2) =
      Except.ok (decide (t1 = t2))) ∧
    (∀ t1 tag, ACCOUNT_eq t1 (EqOperand.other tag) =
      Except.error "NotImplementedError: Only comparison between 2 ACCOUNTs is supported") := by
  refine ⟨?_, fun t1 t2 => rfl, fun t1 tag => rfl⟩
  intro t1 t2
  simp [ACCOUNT_eq]

/-! ## Claim C9 -/

theorem restore_ids_counter_mono (l : List (String × Value)) (f : Nat) :
    f ≤ (restore_with_copy_ids l f).2 := by
  induction l generalizing f with
  | nil => simp [restore_with_copy_ids]
  | cons kv rest ih =>
    obtain ⟨k, v⟩ := kv
    by_cases h : copy_allocates v = true
    · simp only [restore_with_copy_ids, h, if_true]
      exact le_trans (Nat.le_succ f) (ih (f + 1))
    · simp only [restore_with_copy_ids, h, if_false, Bool.false_eq_true]
      exact ih f

theorem restore_ids_lookup_bounds (l : List (String × Value)) (f : Nat)
    (k : String) (v : Value)
    (hl : lookupA k l = some v) (hm : copy_allocates v = true) :
    ∃ idv, lookupA k (restore_with_copy_ids l f).1 = some (v, some idv) ∧
      f ≤ idv ∧ idv < (restore_with_copy_ids l f).2 := by
  induction l generalizing f with
  | nil => simp [lookupA] at hl
  | cons kv rest ih =>
    obtain ⟨k0, v0⟩ := kv
    by_cases hk : k = k0
    · subst hk
      rw [lookupA, if_pos rfl] at hl
      obtain rfl : v0 = v := Option.some.inj hl
      rw [restore_with_copy_ids, if_pos hm]
      refine ⟨f, ?_, le_refl f, ?_⟩
      · rw [lookupA, if_pos rfl]
      · exact Nat.lt_of_lt_of_le (Nat.lt_succ_self f)
          (restore_ids_counter_mono rest (f + 1))
    · rw [lookupA, if_neg hk] at hl
      by_cases h0 : copy_allocates v0 = true
      · obtain ⟨idv, hfind, hlb, hub⟩ := ih (f + 1) hl
        rw [restore_with_copy_ids, if_pos h0]
        refine ⟨idv, ?_, le_trans (Nat.le_succ f) hlb, hub⟩
        rw [lookupA, if_neg hk]
        exact hfind
      · obtain ⟨idv, hfind, hlb, hub⟩ := ih f hl
        rw [restore_with_copy_ids, if_neg (by simp [h0])]
        refine ⟨idv, ?_, hlb, hub⟩
        rw [lookupA, if_neg hk]
        exact hfind

/-- C9: in the decode restore loop, every restore-table default that is a
mutable container is shallow-copied per decoded instance (convert.py
250-251); decoding two objects of the same registered type therefore
assigns them defaults with distinct identities, never the same aliased
object. -/
theorem c9_restore_defaults_not_aliased (restore : List (String × Value))
    (f0 : Nat) (k : String) (v : Value)
    (hk : lookupA k restore = some v) (hm : copy_allocates v = true) :
    ∃ id1 id2,
      lookupA k (restore_with_copy_ids restore f0).1 = some (v, some id1) ∧
      lookupA k (restore_with_copy_ids restore
        (restore_with_copy_ids restore f0).2).1 = some (v, some id2) ∧
      id1 ≠ id2 := by
  obtain ⟨i1, h1, hlb1, hub1⟩ := restore_ids_lookup_bounds restore f0 k v hk hm
  obtain ⟨i2, h2, hlb2, hub2⟩ :=
    restore_ids_lookup_bounds restore (restore_with_copy_ids restore f0).2 k v hk hm
  exact ⟨i1, i2, h1, h2, by omega⟩

/-- Witness for C9 at the ACCOUNT restore table and its mutable `tasks`
default. -/
theorem c9_restore_defaults_not_aliased_witness :
    ∃ id1 id2,
      lookupA "tasks" (restore_with_copy_ids accountTA.attrs_restore 0).1 =
        some (Value.plist [], some id1) ∧
      lookupA "tasks" (restore_with_copy_ids accountTA.attrs_restore
        (restore_with_copy_ids accountTA.attrs_restore 0).2).1 =
        some (Value.plist [], some id2) ∧
      id1 ≠ id2 :=
  c9_restore_defaults_not_aliased accountTA.attrs_restore 0 "tasks"
    (Value.plist []) rfl rfl

/-! ## Claim C5 -/

/-- Counterexample to C5 as stated: with the running flag false at every
observation point of the tick, a first destination whose advertise
generator yields no pair never observes the flag, and the second
destination is still health-checked — the loop does not stop immediately
when the flag flips mid-iteration (client.py 249-262: the flag is only read
after a yielded pair). -/
theorem c5_counterexample :
    (loop_tick_run (fun _ => false)
        [{ check_state := false, advertise := [] },
         { check_state := true, advertise := [] }] 0).visited =
      [{ check_state := false, advertise := [] },
       { check_state := true, advertise := [] }] ∧
    (loop_tick_run (fun _ => false)
        [{ check_state := false, advertise := [] },
         { check_state := true, advertise := [] }] 0).visited ≠
      [{ check_state := false, advertise := [] }] := by
  refine ⟨rfl, ?_⟩
  decide

/-- C5 amended: the running flag is observed once per yielded advertise
pair, after the pair's log is saved.  When such a check observes false the
tick ends immediately: the current destination is the last one visited and
nothing past its current pair is processed.  But a destination whose
generator yields no further pair is passed over without a check, so the
following destination is still processed. -/
theorem c5_stop_at_pair_check (flagAt : Nat → Bool) (s : ServerSim)
    (ss : List ServerSim) (i : Nat) (hcs : s.check_state = false) :
    ((advertise_pairs_run flagAt s.advertise i).halted = true →
      (loop_tick_run flagAt (s :: ss) i).visited = [s] ∧
      (loop_tick_run flagAt (s :: ss) i).logs =
        (advertise_pairs_run flagAt s.advertise i).logs) ∧
    (∀ g mc ps, s.advertise = (g, mc) :: ps → flagAt i = false →
      advertise_pairs_run flagAt s.advertise i =
        { logs := pairLog (g, mc), nextIdx := i + 1, halted := true }) := by
  constructor
  · intro hh
    constructor <;> simp [loop_tick_run, hcs, hh]
  · intro g mc ps hadv hflag
    rw [hadv]
    simp [advertise_pairs_run, hflag]

/-- Witness for C5's amended statement: the flag is false at the first
pair's check, so the tick visits only the first destination and skips the
second one entirely. -/
theorem c5_stop_at_pair_check_witness :
    (loop_tick_run (fun _ => false)
        [{ check_state := false, advertise := [(1, some 2)] },
         { check_state := true, advertise := [] }] 0).visited =
      [{ check_state := false, advertise := [(1, some 2)] }] := by
  have h := c5_stop_at_pair_check (fun _ => false)
    { check_state := false, advertise := [(1, some 2)] }
    [{ check_state := true, advertise := [] }] 0 rfl
  exact (h.1 rfl).1

/-! ## Association-list lemmas -/

theorem lookupA_cons_self {α : Type} (k : String) (v : α) (rest : List (String × α)) :
    lookupA k ((k, v) :: rest) = some v := by
  rw [lookupA, if_pos rfl]

theorem lookupA_cons_ne {α : Type} (k k0 : String) (v : α) (rest : List (String × α))
    (h : k ≠ k0) : lookupA k ((k0, v) :: rest) = lookupA k rest := by
  rw [lookupA, if_neg h]

theorem lookupA_map_snd {α β : Type} (g : α → β) (k : String) (l : List (String × α)) :
    lookupA k (l.map (fun kv => (kv.1, g kv.2))) = (lookupA k l).map g := by
  induction l with
  | nil => rfl
  | cons kv rest ih =>
    obtain ⟨k0, v0⟩ := kv
    by_cases h : k = k0 <;> simp [lookupA, h, ih]

theorem lookupA_none_iff {α : Type} (k : String) (l : List (String × α)) :
    lookupA k l = Option.none ↔ k ∉ l.map Prod.fst := by
  induction l with
  | nil => simp [lookupA]
  | cons kv rest ih =>
    obtain ⟨k0, v0⟩ := kv
    by_cases h : k = k0 <;> simp [lookupA, h, ih]

theorem lookupA_mem_keys {α : Type} (k : String) (l : List (String × α)) (a : α)
    (h : lookupA k l = some a) : k ∈ l.map Prod.fst := by
  induction l with
  | nil => simp [lookupA] at h
  | cons kv rest ih =>
    obtain ⟨k0, v0⟩ := kv
    by_cases hk : k = k0
    · simp [hk]
    · rw [lookupA, if_neg hk] at h
      simp [ih h]

theorem memb_eq_true_iff (k : String) (l : List String) :
    memb k l = true ↔ k ∈ l := by
  induction l with
  | nil => simp [memb]
  | cons x xs ih => by_cases h : k = x <;> simp [memb, h, ih]

theorem lookupA_setattrV_self (fs : Fields) (k : String) (v : Value) :
    lookupA k (setattrV fs k v) = some v := by
  induction fs with
  | nil => simp [setattrV, lookupA]
  | cons kv rest ih =>
    obtain ⟨k0, v0⟩ := kv
    by_cases h : k0 = k
    · subst h
      simp [setattrV, lookupA]
    · have h2 : k ≠ k0 := fun hh => h hh.symm
      simp [setattrV, h, lookupA, h2, ih]

theorem lookupA_setattrV_ne (fs : Fields) (k k2 : String) (v : Value) (h : k2 ≠ k) :
    lookupA k2 (setattrV fs k v) = lookupA k2 fs := by
  induction fs with
  | nil => simp [setattrV, lookupA, h]
  | cons kv rest ih =>
    obtain ⟨k0, v0⟩ := kv
    by_cases h0 : k0 = k
    · subst h0
      have h2 : k2 ≠ k0 := h
      simp [setattrV, lookupA, h2]
    · by_cases h2 : k2 = k0 <;> simp [setattrV, h0, lookupA, h2, ih]

theorem setattrs_cons (fs : Fields) (k : String) (v : Value) (rest : Fields) :
    setattrs fs ((k, v) :: rest) = setattrs (setattrV fs k v) rest := rfl

theorem setattrs_lookup_not_mem (ps : Fields) (fs : Fields) (k : String)
    (h : k ∉ ps.map Prod.fst) :
    lookupA k (setattrs fs ps) = lookupA k fs := by
  induction ps generalizing fs with
  | nil => rfl
  | cons kv rest ih =>
    obtain ⟨k0, v0⟩ := kv
    simp only [List.map_cons, List.mem_cons] at h
    push_neg at h
    rw [setattrs_cons, ih _ h.2, lookupA_setattrV_ne _ _ _ _ h.1]

theorem setattrs_lookup_nodup (ps : Fields) (fs : Fields) (k : String) (v : Value)
    (hnd : (ps.map Prod.fst).Nodup) (h : lookupA k ps = some v) :
    lookupA k (setattrs fs ps) = some v := by
  induction ps generalizing fs with
  | nil => simp [lookupA] at h
  | cons kv rest ih =>
    obtain ⟨k0, v0⟩ := kv
    simp only [List.map_cons, List.nodup_cons] at hnd
    by_cases hk : k = k0
    · subst hk
      rw [lookupA, if_pos rfl] at h
      obtain rfl : v0 = v := Option.some.inj h
      rw [setattrs_cons, setattrs_lookup_not_mem _ _ _ hnd.1, lookupA_setattrV_self]
    · rw [lookupA, if_neg hk] at h
      rw [setattrs_cons]
      exact ih (setattrV fs k0 v0) hnd.2 h

/-! ## Codec lemmas -/

theorem conv_tags_known (tag : String) (a : TypeAttrs)
    (h : lookupA tag CONVERSION_ATTRS = some a) :
    memb tag KNOWN_CLASSES = true := by
  have hmem := lookupA_mem_keys tag CONVERSION_ATTRS a h
  have heq : CONVERSION_ATTRS.map Prod.fst = KNOWN_CLASSES := rfl
  rw [heq] at hmem
  exact (memb_eq_true_iff tag KNOWN_CLASSES).mpr hmem

theorem enc_stable_id (fuel : Nat) :
    (∀ v w, stable v = true → convert_object_to_semi_dict fuel v = some w → w = v) ∧
    (∀ xs ws, stableList xs = true → encList fuel xs = some ws → ws = xs) ∧
    (∀ kvs ws, stableDict kvs = true → encDict fuel kvs = some ws → ws = kvs) := by
  induction fuel with
  | zero =>
    refine ⟨?_, ?_, ?_⟩ <;> intro x w _ h <;>
      simp [convert_object_to_semi_dict, encList, encDict] at h
  | succ n ih =>
    obtain ⟨ihv, ihl, ihd⟩ := ih
    refine ⟨?_, ?_, ?_⟩
    · intro v w hs he
      cases v with
      | pnone => exact (Option.some.inj he).symm
      | pbool b => exact (Option.some.inj he).symm
      | pint x => exact (Option.some.inj he).symm
      | pfloat x => exact (Option.some.inj he).symm
      | pdec x => simp [stable] at hs
      | pstr s => exact (Option.some.inj he).symm
      | ptuple xs => simp [stable] at hs
      | pset xs => simp [stable] at hs
      | psem x => exact (Option.some.inj he).symm
      | pclient => exact (Option.some.inj he).symm
      | plist xs =>
        have hsl : stableList xs = true := by simpa [stable] using hs
        simp only [convert_object_to_semi_dict] at he
        rcases hE : encList n xs with _ | ys <;> rw [hE] at he
        · exact Option.noConfusion he
        · obtain rfl := Option.some.inj he
          rw [ihl xs ys hsl hE]
      | pdict kvs =>
        have hsd : stableDict kvs = true := by
          rcases hot : lookupA "object_type" kvs with _ | ot
          · simpa [stable, hot] using hs
          · rw [stable] at hs
            rw [hot] at hs
            exact absurd hs (by simp)
        simp only [convert_object_to_semi_dict] at he
        rcases hE : encDict n kvs with _ | ys <;> rw [hE] at he
        · exact Option.noConfusion he
        · obtain rfl := Option.some.inj he
          rw [ihd kvs ys hsd hE]
      | pobj tag fields =>
        rcases hT : lookupA tag CONVERSION_ATTRS with _ | a
        · simp only [convert_object_to_semi_dict] at he
          rw [hT] at he
          exact (Option.some.inj he).symm
        · rw [stable] at hs
          rw [hT] at hs
          exact absurd hs (by simp)
    · intro xs ws hsl he
      cases xs with
      | nil => exact (Option.some.inj he).symm
      | cons x rest =>
        have hs1 : stable x = true ∧ stableList rest = true := by
          simpa [stableList, Bool.and_eq_true] using hsl
        simp only [encList] at he
        rcases hE1 : convert_object_to_semi_dict n x with _ | y <;> rw [hE1] at he
        · exact Option.noConfusion he
        · rcases hE2 : encList n rest with _ | ys <;> rw [hE2] at he
          · exact Option.noConfusion he
          · obtain rfl := Option.some.inj he
            rw [ihv x y hs1.1 hE1, ihl rest ys hs1.2 hE2]
    · intro kvs ws hsd he
      cases kvs with
      | nil => exact (Option.some.inj he).symm
      | cons kv rest =>
        obtain ⟨k, v⟩ := kv
        have hs1 : stable v = true ∧ stableDict rest = true := by
          simpa [stableDict, Bool.and_eq_true] using hsd
        simp only [encDict] at he
        rcases hE1 : convert_object_to_semi_dict n v with _ | y <;> rw [hE1] at he
        · exact Option.noConfusion he
        · rcases hE2 : encDict n rest with _ | ys <;> rw [hE2] at he
          · exact Option.noConfusion he
          · obtain rfl := Option.some.inj he
            rw [ihv v y hs1.1 hE1, ihd rest ys hs1.2 hE2]

theorem dec_stable_id (fuel : Nat) :
    (∀ v w, stable v = true → convert_from_semi_dict fuel v = some w → w = v) ∧
    (∀ xs ws, stableList xs = true → decList fuel xs = some ws → ws = xs) ∧
    (∀ kvs ws, stableDict kvs = true → decDict fuel kvs = some ws → ws = kvs) := by
  induction fuel with
  | zero =>
    refine ⟨?_, ?_, ?_⟩ <;> intro x w _ h <;>
      simp [convert_from_semi_dict, decList, decDict] at h
  | succ n ih =>
    obtain ⟨ihv, ihl, ihd⟩ := ih
    have helem : ∀ x y, stable x = true → decElem n x = some y → y = x := by
      intro x y hsx hDE
      cases x <;> first
        | exact ihv _ _ hsx hDE
        | exact (Option.some.inj hDE).symm
    refine ⟨?_, ?_, ?_⟩
    · intro v w hs he
      cases v with
      | pnone => exact (Option.some.inj he).symm
      | pbool b => exact (Option.some.inj he).symm
      | pint x => exact (Option.some.inj he).symm
      | pfloat x => exact (Option.some.inj he).symm
      | pdec x => simp [stable] at hs
      | pstr s => exact (Option.some.inj he).symm
      | ptuple xs => simp [stable] at hs
      | pset xs => simp [stable] at hs
      | psem x => exact (Option.some.inj he).symm
      | pclient => exact (Option.some.inj he).symm
      | pobj tag fields => exact (Option.some.inj he).symm
      | plist xs =>
        have hsl : stableList xs = true := by simpa [stable] using hs
        simp only [convert_from_semi_dict] at he
        rcases hE : decList n xs with _ | ys <;> rw [hE] at he
        · exact Option.noConfusion he
        · obtain rfl := Option.some.inj he
          rw [ihl xs ys hsl hE]
      | pdict kvs =>
        rcases hot : lookupA "object_type" kvs with _ | ot
        · have hsd : stableDict kvs = true := by simpa [stable, hot] using hs
          simp only [convert_from_semi_dict] at he
          rw [hot] at he
          rcases hE : decDict n kvs with _ | ys <;> rw [hE] at he
          · exact Option.noConfusion he
          · obtain rfl := Option.some.inj he
            rw [ihd kvs ys hsd hE]
        · rw [stable] at hs
          rw [hot] at hs
          exact absurd hs (by simp)
    · intro xs ws hsl he
      cases xs with
      | nil => exact (Option.some.inj he).symm
      | cons x rest =>
        have hs1 : stable x = true ∧ stableList rest = true := by
          simpa [stableList, Bool.and_eq_true] using hsl
        have hstep : decList (Nat.succ n) (x :: rest) =
            match decElem n x, decList n rest with
            | some y, some ys => some (y :: ys)
            | _, _ => Option.none := by
          cases x <;> rfl
        rw [hstep] at he
        rcases hE1 : decElem n x with _ | y <;> rw [hE1] at he
        · exact Option.noConfusion he
        · rcases hE2 : decList n rest with _ | ys <;> rw [hE2] at he
          · exact Option.noConfusion he
          · obtain rfl := Option.some.inj he
            rw [helem x y hs1.1 hE1, ihl rest ys hs1.2 hE2]
    · intro kvs ws hsd he
      cases kvs with
      | nil => exact (Option.some.inj he).symm
      | cons kv rest =>
        obtain ⟨k, v⟩ := kv
        have hs1 : stable v = true ∧ stableDict rest = true := by
          simpa [stableDict, Bool.and_eq_true] using hsd
        simp only [decDict] at he
        rcases hE1 : convert_from_semi_dict n v with _ | y <;> rw [hE1] at he
        · exact Option.noConfusion he
        · rcases hE2 : decDict n rest with _ | ys <;> rw [hE2] at he
          · exact Option.noConfusion he
          · obtain rfl := Option.some.inj he
            rw [ihv v y hs1.1 hE1, ihd rest ys hs1.2 hE2]

theorem decDataStep_stable (fuel : Nat) (v w : Value) (hs : stable v = true)
    (h : decDataStep fuel v = some w) : w = v := by
  cases v <;> first
    | exact (dec_stable_id fuel).1 _ _ hs h
    | exact (Option.some.inj h).symm

theorem decData_cons_eq (fuel : Nat) (k : String) (v : Value) (kvs : Fields) :
    decData (Nat.succ fuel) ((k, v) :: kvs) =
      match decDataStep fuel v, decData fuel kvs with
      | some y, some ys => some ((k, y) :: ys)
      | _, _ => Option.none := by
  cases v <;> rfl

theorem decData_keys (fuel : Nat) (dataC : Fields) (ps : Fields)
    (h : decData fuel dataC = some ps) : ps.map Prod.fst = dataC.map Prod.fst := by
  induction dataC generalizing fuel ps with
  | nil =>
    cases fuel with
    | zero => simp [decData] at h
    | succ n =>
      obtain rfl := Option.some.inj h
      rfl
  | cons kv rest ih =>
    obtain ⟨k, v⟩ := kv
    cases fuel with
    | zero => simp [decData] at h
    | succ n =>
      rw [decData_cons_eq] at h
      rcases h1 : decDataStep n v with _ | y <;> rw [h1] at h
      · exact Option.noConfusion h
      · rcases h2 : decData n rest with _ | ys <;> rw [h2] at h
        · exact Option.noConfusion h
        · obtain rfl := Option.some.inj h
          simp [ih n ys h2]

theorem decData_lookup (fuel : Nat) (dataC : Fields) (ps : Fields) (k : String)
    (w : Value) (h : decData fuel dataC = some ps) (hl : lookupA k dataC = some w) :
    ∃ f2 w2, lookupA k ps = some w2 ∧ decDataStep f2 w = some w2 := by
  induction dataC generalizing fuel ps with
  | nil => simp [lookupA] at hl
  | cons kv rest ih =>
    obtain ⟨k0, v0⟩ := kv
    cases fuel with
    | zero => simp [decData] at h
    | succ n =>
      rw [decData_cons_eq] at h
      rcases h1 : decDataStep n v0 with _ | y <;> rw [h1] at h
      · exact Option.noConfusion h
      · rcases h2 : decData n rest with _ | ys <;> rw [h2] at h
        · exact Option.noConfusion h
        · obtain rfl := Option.some.inj h
          by_cases hk : k = k0
          · subst hk
            rw [lookupA, if_pos rfl] at hl
            obtain rfl : v0 = w := Option.some.inj hl
            exact ⟨n, y, by rw [lookupA, if_pos rfl], h1⟩
          · rw [lookupA, if_neg hk] at hl
            obtain ⟨f2, w2, hw1, hw2⟩ := ih n ys h2 hl
            refine ⟨f2, w2, ?_, hw2⟩
            rw [lookupA, if_neg hk]
            exact hw1

theorem encData_keys_sublist (ks : List String) (fuel : Nat) (a : TypeAttrs)
    (fields : Fields) (dataC : Fields)
    (h : encData fuel a fields ks = some dataC) :
    List.Sublist (dataC.map Prod.fst) ks := by
  induction ks generalizing fuel dataC with
  | nil =>
    cases fuel with
    | zero => simp [encData] at h
    | succ n =>
      obtain rfl := Option.some.inj h
      simp
  | cons k ks ih =>
    cases fuel with
    | zero => simp [encData] at h
    | succ n =>
      simp only [encData] at h
      by_cases hsk : encSkip a k = true
      · rw [if_pos hsk] at h
        exact List.Sublist.cons _ (ih n dataC h)
      · rw [if_neg hsk] at h
        split at h
        · exact Option.noConfusion h
        · rename_i value hv
          split at h
          · rename_i ev rest hE1 hE2
            obtain rfl := Option.some.inj h
            exact List.Sublist.cons₂ _ (ih n rest hE2)
          · exact Option.noConfusion h

theorem encData_lookup_durable (ks : List String) (fuel : Nat) (a : TypeAttrs)
    (fields : Fields) (dataC : Fields) (k : String)
    (h : encData fuel a fields ks = some dataC)
    (hmem : k ∈ ks)
    (hres : lookupA k a.attrs_restore = Option.none)
    (hskip : memb k a.attrs_skip = false)
    (hconv : lookupA k a.attrs_convert = Option.none) :
    ∃ f2 v ev, lookupA k fields = some v ∧
      convert_object_to_semi_dict f2 v = some ev ∧
      lookupA k dataC = some ev := by
  induction ks generalizing fuel dataC with
  | nil => cases hmem
  | cons k0 ks ih =>
    cases fuel with
    | zero => simp [encData] at h
    | succ n =>
      simp only [encData] at h
      have hnotsk : encSkip a k = false := by
        rw [encSkip, hres, hskip]
        rfl
      by_cases hsk : encSkip a k0 = true
      · rw [if_pos hsk] at h
        have hkne : k ≠ k0 := by
          intro hkk
          rw [hkk] at hnotsk
          rw [hnotsk] at hsk
          exact Bool.noConfusion hsk
        have hmem2 : k ∈ ks := by
          rcases List.mem_cons.mp hmem with h1 | h2
          · exact absurd h1 hkne
          · exact h2
        exact ih n dataC h hmem2
      · rw [if_neg hsk] at h
        split at h
        · exact Option.noConfusion h
        · rename_i value hv
          split at h
          · rename_i ev rest hE1 hE2
            obtain rfl := Option.some.inj h
            by_cases hk : k = k0
            · subst hk
              rw [encAttrSource, hconv] at hv
              refine ⟨n, value, ev, hv, hE1, ?_⟩
              rw [lookupA, if_pos rfl]
            · have hmem2 : k ∈ ks := by
                rcases List.mem_cons.mp hmem with h1 | h2
                · exact absurd h1 hk
                · exact h2
              obtain ⟨f2, v, ev2, hvv, hee, hll⟩ := ih n rest hE2 hmem2
              refine ⟨f2, v, ev2, hvv, hee, ?_⟩
              rw [lookupA, if_neg hk]
              exact hll
          · exact Option.noConfusion h

theorem enc_registered_obj (n : Nat) (tag : String) (fields : Fields) (a : TypeAttrs)
    (ha : lookupA tag CONVERSION_ATTRS = some a) :
    convert_object_to_semi_dict (Nat.succ n) (Value.pobj tag fields) =
      match encData n a fields a.attrs with
      | some dataC =>
        some (Value.pdict
          [("object_type", Value.pstr tag), ("data", Value.pdict dataC)])
      | Option.none => Option.none := by
  simp only [convert_object_to_semi_dict]
  rw [ha]

theorem dec_tagged_dict (m : Nat) (tag : String) (dataC : Fields) :
    convert_from_semi_dict (Nat.succ m)
      (Value.pdict [("object_type", Value.pstr tag), ("data", Value.pdict dataC)]) =
      if memb tag KNOWN_CLASSES then
        match decData m dataC with
        | some ps => some (Value.pobj tag (applyRestore tag (setattrs [] ps)))
        | Option.none => Option.none
      else Option.none := rfl

theorem applyRestore_lookup_restore (tag : String) (a : TypeAttrs) (fs : Fields)
    (k : String) (dv : Value)
    (ha : lookupA tag CONVERSION_ATTRS = some a)
    (hnr : (a.attrs_restore.map Prod.fst).Nodup)
    (hk : lookupA k a.attrs_restore = some dv) :
    lookupA k (applyRestore tag fs) = some dv := by
  simp only [applyRestore]
  rw [ha]
  apply setattrs_lookup_nodup
  · have : ((a.attrs_restore.map fun kv => (kv.1, copy_restore_value kv.2)).map
        Prod.fst) = a.attrs_restore.map Prod.fst := by
      simp [List.map_map, Function.comp]
    rw [this]
    exact hnr
  · rw [lookupA_map_snd, hk]
    rfl

theorem applyRestore_lookup_other (tag : String) (a : TypeAttrs) (fs : Fields)
    (k : String)
    (ha : lookupA tag CONVERSION_ATTRS = some a)
    (hk : lookupA k a.attrs_restore = Option.none) :
    lookupA k (applyRestore tag fs) = lookupA k fs := by
  simp only [applyRestore]
  rw [ha]
  apply setattrs_lookup_not_mem
  have hnm := (lookupA_none_iff k a.attrs_restore).mp hk
  intro hcon
  apply hnm
  simpa [List.map_map, Function.comp] using hcon

/-! ## Claim C1 -/

/-- Counterexample to C1 as stated: GUILD is registered and `_apiobject` is
a durable slot (in neither the restore table nor the skip list), yet the
decoded object's `_apiobject` holds the converted id 123 instead of its
pre-encode value (the live api object): the convert table replaces the
value on encode (convert.py 76-79) and decode never inverts it. -/
theorem c1_counterexample :
    lookupA "daf.guild.GUILD" CONVERSION_ATTRS = some guildTA ∧
    "_apiobject" ∈ guildTA.attrs ∧
    lookupA "_apiobject" guildTA.attrs_restore = Option.none ∧
    memb "_apiobject" guildTA.attrs_skip = false ∧
    convert_object_to_semi_dict 20 gSampleObj = some gSampleEnc ∧
    convert_from_semi_dict 20 gSampleEnc =
      some (Value.pobj "daf.guild.GUILD" gSampleDecFields) ∧
    lookupA "_apiobject" gSampleFields =
      some (Value.pobj "_discord.guild.Guild" [("id", Value.pint 123)]) ∧
    lookupA "_apiobject" gSampleDecFields = some (Value.pint 123) ∧
    Value.pint 123 ≠ Value.pobj "_discord.guild.Guild" [("id", Value.pint 123)] := by
  refine ⟨rfl, by decide, rfl, rfl, rfl, rfl, rfl, rfl, fun h => Value.noConfusion h⟩

/-- C1 amended: for a registered entity, encode→decode reproduces every
durable slot that is outside the convert table and whose value lies in the
round-trip-stable fragment, and resets every restore-table slot to its
declared default.  (As stated the claim fails for convert-table slots — see
the counterexample — and for durable values that the codec normalizes:
sets/tuples become lists, Decimals become floats, nested registered
entities are themselves rebuilt.) -/
theorem c1_roundtrip_amended (tag : String) (a : TypeAttrs) (fields : Fields)
    (n m : Nat) (e out : Value)
    (ha : lookupA tag CONVERSION_ATTRS = some a)
    (hnd : a.attrs.Nodup)
    (hnr : (a.attrs_restore.map Prod.fst).Nodup)
    (henc : convert_object_to_semi_dict n (Value.pobj tag fields) = some e)
    (hdec : convert_from_semi_dict m e = some out) :
    ∃ fields2,
      out = Value.pobj tag fields2 ∧
      (∀ k v, k ∈ a.attrs → lookupA k a.attrs_restore = Option.none →
        memb k a.attrs_skip = false → lookupA k a.attrs_convert = Option.none →
        lookupA k fields = some v → stable v = true →
        lookupA k fields2 = some v) ∧
      (∀ k dv, lookupA k a.attrs_restore = some dv →
        lookupA k fields2 = some dv) := by
  cases n with
  | zero => simp [convert_object_to_semi_dict] at henc
  | succ n1 =>
    rw [enc_registered_obj n1 tag fields a ha] at henc
    rcases hD : encData n1 a fields a.attrs with _ | dataC <;> rw [hD] at henc
    · exact Option.noConfusion henc
    · obtain rfl := Option.some.inj henc
      cases m with
      | zero => simp [convert_from_semi_dict] at hdec
      | succ m1 =>
        rw [dec_tagged_dict, if_pos (conv_tags_known tag a ha)] at hdec
        rcases hP : decData m1 dataC with _ | ps <;> rw [hP] at hdec
        · exact Option.noConfusion hdec
        · obtain rfl := Option.some.inj hdec
          refine ⟨applyRestore tag (setattrs [] ps), rfl, ?_, ?_⟩
          · intro k v hmem hres hskip hconv hval hstab
            obtain ⟨f2, v0, ev, hv0, hE, hlk⟩ :=
              encData_lookup_durable a.attrs n1 a fields dataC k hD hmem hres
                hskip hconv
            rw [hval] at hv0
            obtain rfl := Option.some.inj hv0
            obtain rfl := (enc_stable_id f2).1 _ _ hstab hE
            obtain ⟨f3, w2, hw1, hw2⟩ := decData_lookup m1 dataC ps k _ hP hlk
            obtain rfl := decDataStep_stable f3 _ w2 hstab hw2
            have hkeys : ps.map Prod.fst = dataC.map Prod.fst :=
              decData_keys m1 dataC ps hP
            have hsub : List.Sublist (dataC.map Prod.fst) a.attrs :=
              encData_keys_sublist a.attrs n1 a fields dataC hD
            have hndps : (ps.map Prod.fst).Nodup := by
              rw [hkeys]
              exact List.Nodup.sublist hsub hnd
            rw [applyRestore_lookup_other tag a _ k ha hres]
            exact setattrs_lookup_nodup ps [] k _ hndps hw1
          · intro k dv hk
            exact applyRestore_lookup_restore tag a _ k dv ha hnr hk

/-- Witness for the amended C1: an ACCOUNT encoded while running decodes
with its durable fields intact and its restore-table fields reset (running
false, guard capacity 1, task dict emptied to the default). -/
theorem c1_roundtrip_amended_witness :
    ∃ f2, c1SampleDec = Value.pobj "daf.client.ACCOUNT" f2 ∧
      lookupA "_token" f2 = some (Value.pstr "secret-token") ∧
      lookupA "intents" f2 =
        some (Value.pobj "_discord.flags.Intents" [("value", Value.pint 37)]) ∧
      lookupA "_running" f2 = some (Value.pbool false) ∧
      lookupA "_update_sem" f2 = some (Value.psem 1) := by
  obtain ⟨f2, hobj, hdur, hres⟩ :=
    c1_roundtrip_amended "daf.client.ACCOUNT" accountTA c1SampleFields 30 30
      c1SampleEnc c1SampleDec rfl (by decide) (by decide) rfl rfl
  refine ⟨f2, hobj, ?_, ?_, ?_, ?_⟩
  · exact hdur "_token" (Value.pstr "secret-token") (by decide) rfl rfl rfl rfl rfl
  · exact hdur "intents"
      (Value.pobj "_discord.flags.Intents" [("value", Value.pint 37)])
      (by decide) rfl rfl rfl rfl rfl
  · exact hres "_running" (Value.pbool false) rfl
  · exact hres "_update_sem" (Value.psem 1) rfl

/-! ## Claim C10 -/

/-- C10: `ACCOUNT.__init__` creates `_update_sem` with capacity 2
(client.py 111) and `update()` acquires 2 permits of it (client.py 273),
but the codec's restore table re-creates `_update_sem` with capacity 1 on
every decode (convert.py 45), so a decoded account's guard capacity differs
from a constructed account's and is smaller than what `update()` acquires. -/
theorem c10_update_sem_capacity_mismatch (tok : String) (iu : Bool)
    (px it : Value) (srv : List Value) (fields : Fields) (n m : Nat)
    (e out : Value)
    (henc : convert_object_to_semi_dict n
      (Value.pobj "daf.client.ACCOUNT" fields) = some e)
    (hdec : convert_from_semi_dict m e = some out) :
    lookupA "_update_sem" (ACCOUNT_fields tok iu px it srv) =
      some (Value.psem 2) ∧
    ACCOUNT_update_acquire_permits = 2 ∧
    (∃ f2, out = Value.pobj "daf.client.ACCOUNT" f2 ∧
      lookupA "_update_sem" f2 = some (Value.psem 1)) ∧
    (1 : Nat) ≠ 2 ∧ 1 < ACCOUNT_update_acquire_permits := by
  refine ⟨rfl, rfl, ?_, by decide, by decide⟩
  cases n with
  | zero => simp [convert_object_to_semi_dict] at henc
  | succ n1 =>
    rw [enc_registered_obj n1 "daf.client.ACCOUNT" fields accountTA rfl] at henc
    rcases hD : encData n1 accountTA fields accountTA.attrs with _ | dataC <;>
      rw [hD] at henc
    · exact Option.noConfusion henc
    · obtain rfl := Option.some.inj henc
      cases m with
      | zero => simp [convert_from_semi_dict] at hdec
      | succ m1 =>
        rw [dec_tagged_dict,
          if_pos (conv_tags_known "daf.client.ACCOUNT" accountTA rfl)] at hdec
        rcases hP : decData m1 dataC with _ | ps <;> rw [hP] at hdec
        · exact Option.noConfusion hdec
        · obtain rfl := Option.some.inj hdec
          refine ⟨_, rfl, ?_⟩
          exact applyRestore_lookup_restore "daf.client.ACCOUNT" accountTA _
            "_update_sem" (Value.psem 1) rfl (by decide) rfl

/-- Witness for C10 at a freshly constructed, encoded and decoded ACCOUNT. -/
theorem c10_update_sem_capacity_mismatch_witness :
    lookupA "_update_sem" (ACCOUNT_fields "tok-10" false Value.pnone Value.pnone []) =
      some (Value.psem 2) ∧
    (∃ f2, c10SampleDec = Value.pobj "daf.client.ACCOUNT" f2 ∧
      lookupA "_update_sem" f2 = some (Value.psem 1)) ∧
    1 < ACCOUNT_update_acquire_permits := by
  have h := c10_update_sem_capacity_mismatch "tok-10" false Value.pnone Value.pnone
    [] c10SampleFields 30 30 c10SampleEnc c10SampleDec rfl rfl
  exact ⟨h.1, h.2.2.1, h.2.2.2.2⟩

end DAF
